import Mathlib

/-!
# Verification of the energia-prep-2 hourly computation core

Shallow embedding, over exact rationals `ℚ`, of the stages of the
calculation pipeline that the claims concern:

* stage 03 (`03_commit.py`): the per-hour dispatch loop (`run`),
* stage 02 (`02_proposer.py`): `_build_daily_pairs` and the signal loop (`run`),
* stage 01 (`01_ingest.py`): `_mask_from_se` and the per-(month,mode) zone-mask assembly,
* stage 04b (`04b_pricing_dyst.py`): `_compute_K_A_per_day` and the capacity-fee term,
* stage 06 (`06_validate.py`): the range checks the claims refer to.

Floating point `float64` values are modelled as `ℚ`; the embedding's domain is
the finite floats, so every `np.isfinite` test on a cap is `True` and the
corresponding guarded statement always executes.  Non-finite *prices* are the
one place the source distinguishes NaN/±∞, so prices are modelled by a
dedicated type `Px` with a finiteness predicate.  `np.argsort` over a price
vector uses numpy's default sort, which is *not* stable: on ties the order of
equal-priced hours is implementation-defined.  It is therefore modelled
nondeterministically, as the predicates `ValidArgsortAsc`/`ValidArgsortDesc`
(any permutation of the day's hours that is monotone in the price); the
day-pairing statement quantifies over all such outcomes, and the concrete
proposer runs use tie-free price vectors, on which every valid outcome
coincides with the deterministic `(price, hour)` order `lowLe`/`highLe` used
to compute them.
-/

/-- `EPS = 1e-12`, the epsilon used by stages 02 and 03. -/
def eps : ℚ := 1 / 1000000000000

namespace Commit

/-- Scalar parameters of the commit stage (`03_commit.py:41-53`). -/
structure CParams where
  emaxArbi : ℚ
  emaxOze : ℚ
  etaCh : ℚ
  etaDis : ℚ
  lambdaH : ℚ
  arbiDisToLoad : Bool


/-- Per-hour inputs of the commit loop (caps, balance, proposals). -/
structure HourIn where
  capGridExport : ℚ
  capGridImport : ℚ
  capBessCh : ℚ
  capBessDis : ℚ
  surplus : ℚ
  deficit : ℚ
  propDis : ℚ
  propCh : ℚ


/-- The mutable per-hour working state of the commit loop: the two SOC
variables, the BESS budgets, the remaining surplus/deficit, and this hour's
flow and loss accumulators (`03_commit.py:121-124` and the per-hour zeroed
columns). -/
structure St where
  socOze : ℚ
  socArbi : ℚ
  disB : ℚ
  chB : ℚ
  surplus : ℚ
  deficit : ℚ
  chFromSurplus : ℚ
  chFromGrid : ℚ
  disToLoad : ℚ
  disToGrid : ℚ
  eImp : ℚ
  eExp : ℚ
  expSurplus : ℚ
  expArbi : ℚ
  impLoad : ℚ
  impArbi : ℚ
  lossConvCh : ℚ
  lossConvDisGrid : ℚ
  lossConvDisLoad : ℚ
  wasted : ℚ
  capBlockedDis : ℚ
  capBlockedCh : ℚ
  unserved : ℚ
  bindExp : Bool
  bindImp : Bool


/-- Initial working state of one hour (`03_commit.py:121-124`): budgets from
the (finite) BESS caps, surplus/deficit from stage 01, accumulators zero. -/
def initSt (soc : ℚ × ℚ) (hin : HourIn) : St :=
  { socOze := soc.1, socArbi := soc.2
    disB := hin.capBessDis, chB := hin.capBessCh
    surplus := hin.surplus, deficit := hin.deficit
    chFromSurplus := 0, chFromGrid := 0, disToLoad := 0, disToGrid := 0
    eImp := 0, eExp := 0
    expSurplus := 0, expArbi := 0, impLoad := 0, impArbi := 0
    lossConvCh := 0, lossConvDisGrid := 0, lossConvDisLoad := 0, wasted := 0
    capBlockedDis := 0, capBlockedCh := 0, unserved := 0
    bindExp := false, bindImp := false }

/-- Step 1 (`03_commit.py:126-150`): surplus absorbed by OZE, then ARBI
(under the BESS charge budget), the remainder becoming candidate export. -/
def step1 (p : CParams) (s : St) : St :=
  if s.surplus > eps then
    let headOze := max 0 (p.emaxOze - s.socOze)
    let toOze := min s.surplus headOze
    let s1 :=
      if toOze > eps then
        { s with socOze := min p.emaxOze (s.socOze + toOze),
                 surplus := s.surplus - toOze }
      else s
    let headArbi := max 0 (p.emaxArbi - s1.socArbi)
    let toArbi := min (min s1.surplus headArbi) s1.chB
    let s2 :=
      if toArbi > eps then
        { s1 with chFromSurplus := s1.chFromSurplus + toArbi,
                  surplus := s1.surplus - toArbi,
                  socArbi := min p.emaxArbi (s1.socArbi + toArbi),
                  chB := max 0 (s1.chB - toArbi) }
      else s1
    if s2.surplus > eps then
      { s2 with eExp := s2.eExp + s2.surplus,
                expSurplus := s2.expSurplus + s2.surplus,
                surplus := 0 }
    else s2
  else s

/-- Step 2 (`03_commit.py:152-179`): deficit covered from OZE, optionally
from ARBI (policy, under the BESS discharge budget), remainder to import. -/
def step2 (p : CParams) (s : St) : St :=
  let d0 := max 0 s.deficit
  if d0 > eps then
    let fromOze := min d0 s.socOze
    let s1 :=
      if fromOze > eps then
        { s with socOze := max 0 (s.socOze - fromOze),
                 deficit := d0 - fromOze,
                 disToLoad := s.disToLoad + fromOze,
                 lossConvDisLoad := s.lossConvDisLoad +
                   (if p.etaDis > eps then fromOze * (1 / p.etaDis - 1) else 0) }
      else { s with deficit := d0 }
    let s2 :=
      if s1.deficit > eps ∧ p.arbiDisToLoad ∧ s1.disB > eps then
        let canFromArbi := min s1.deficit (min s1.socArbi s1.disB)
        if canFromArbi > eps then
          { s1 with socArbi := max 0 (s1.socArbi - canFromArbi),
                    deficit := s1.deficit - canFromArbi,
                    disB := max 0 (s1.disB - canFromArbi),
                    disToLoad := s1.disToLoad + canFromArbi,
                    lossConvDisLoad := s1.lossConvDisLoad +
                      (if p.etaDis > eps then canFromArbi * (1 / p.etaDis - 1) else 0) }
        else s1
      else s1
    if s2.deficit > eps then
      { s2 with eImp := s2.eImp + s2.deficit,
                impLoad := s2.impLoad + s2.deficit }
    else s2
  else s

/-- Step 3 (`03_commit.py:181-201`): arbitrage discharge to grid following the
stage-02 proposal, bounded by SOC, discharge budget and `η_dis`. -/
def step3 (p : CParams) (hin : HourIn) (s : St) : St :=
  if s.disB > eps then
    let maxNetForGrid := min s.socArbi s.disB
    let maxAcForGrid := maxNetForGrid * p.etaDis
    let outAc := min hin.propDis maxAcForGrid
    if outAc > eps then
      let usedNet0 := if p.etaDis > eps then outAc / p.etaDis else outAc
      let usedNet := min usedNet0 maxNetForGrid
      { s with socArbi := max 0 (s.socArbi - usedNet),
               disB := max 0 (s.disB - usedNet),
               disToGrid := s.disToGrid + outAc,
               expArbi := s.expArbi + outAc,
               eExp := s.eExp + outAc,
               lossConvDisGrid := s.lossConvDisGrid + (usedNet - outAc) }
    else
      let blocked := max 0 (hin.propDis - maxNetForGrid * p.etaDis)
      if blocked > eps then { s with capBlockedDis := s.capBlockedDis + blocked } else s
  else s

/-- Step 4 (`03_commit.py:203-222`): arbitrage charge from grid following the
stage-02 proposal, bounded by headroom, charge budget and `η_ch`. -/
def step4 (p : CParams) (hin : HourIn) (s : St) : St :=
  let headArbi := max 0 (p.emaxArbi - s.socArbi)
  let netToArbi := min (hin.propCh * p.etaCh) (min headArbi s.chB)
  if netToArbi > eps then
    let acNeeded := if p.etaCh > eps then netToArbi / p.etaCh else netToArbi
    { s with socArbi := min p.emaxArbi (s.socArbi + netToArbi),
             chFromGrid := s.chFromGrid + netToArbi,
             eImp := s.eImp + acNeeded,
             impArbi := s.impArbi + acNeeded,
             lossConvCh := s.lossConvCh + (acNeeded - netToArbi),
             chB := max 0 (s.chB - netToArbi) }
  else
    let blockedNet := max 0 (hin.propCh * p.etaCh - max 0 (min headArbi s.chB))
    if blockedNet > eps then { s with capBlockedCh := s.capBlockedCh + blockedNet } else s

/-- Step 5, export side (`03_commit.py:224-248`): the grid export cap is
enforced on the AC sum; the ARBI flow is cut first (reverting SOC and the
discharge budget), then the surplus flow (credited to waste). -/
def step5exp (p : CParams) (hin : HourIn) (s : St) : St :=
  let total := s.expSurplus + s.expArbi
  if total > hin.capGridExport + eps then
    let overflow := total - hin.capGridExport
    let cutArbi := min s.expArbi overflow
    let s1 :=
      if cutArbi > eps then
        let netRevert := if p.etaDis > eps then cutArbi / p.etaDis else cutArbi
        { s with expArbi := s.expArbi - cutArbi,
                 eExp := s.eExp - cutArbi,
                 socArbi := min p.emaxArbi (s.socArbi + netRevert),
                 disB := min (s.disB + netRevert) hin.capBessDis }
      else s
    let overflow1 := overflow - cutArbi
    let s2 :=
      if overflow1 > eps then
        let cutSurplus := min s1.expSurplus overflow1
        if cutSurplus > eps then
          { s1 with expSurplus := s1.expSurplus - cutSurplus,
                    eExp := s1.eExp - cutSurplus,
                    wasted := s1.wasted + cutSurplus }
        else s1
      else s1
    { s2 with bindExp := true }
  else s

/-- Step 5, import side (`03_commit.py:250-276`): the grid import cap is
enforced on the AC sum; the ARBI flow is cut first (reverting SOC, the charge
budget and the conversion loss), then the load import (credited to unserved). -/
def step5imp (p : CParams) (hin : HourIn) (s : St) : St :=
  let total := s.impLoad + s.impArbi
  if total > hin.capGridImport + eps then
    let overflow := total - hin.capGridImport
    let cutArbi := min s.impArbi overflow
    let s1 :=
      if cutArbi > eps then
        let netRevert := cutArbi * p.etaCh
        let sA := { s with impArbi := s.impArbi - cutArbi, eImp := s.eImp - cutArbi }
        if netRevert > eps then
          { sA with socArbi := max 0 (sA.socArbi - netRevert),
                    chFromGrid := max 0 (sA.chFromGrid - netRevert),
                    lossConvCh := max 0 (sA.lossConvCh - (cutArbi - netRevert)),
                    chB := min (sA.chB + netRevert) hin.capBessCh }
        else sA
      else s
    let overflow1 := overflow - cutArbi
    let s2 :=
      if overflow1 > eps then
        let cutLoad := min s1.impLoad overflow1
        if cutLoad > eps then
          { s1 with impLoad := s1.impLoad - cutLoad,
                    eImp := s1.eImp - cutLoad,
                    unserved := s1.unserved + cutLoad }
        else s1
      else s1
    { s2 with bindImp := true }
  else s

/-- Per-hour output record of the commit stage (the stage-03 columns the
claims are about). -/
structure HourOut where
  chFromSurplus : ℚ
  chFromGrid : ℚ
  disToLoad : ℚ
  disToGrid : ℚ
  eImp : ℚ
  eExp : ℚ
  expSurplus : ℚ
  expArbi : ℚ
  impLoad : ℚ
  impArbi : ℚ
  socOzeBeforeIdle : ℚ
  socOzeAfterIdle : ℚ
  socArbiBeforeIdle : ℚ
  socArbiAfterIdle : ℚ
  socArbiPctOfArbi : ℚ
  socArbiPctOfTotal : ℚ
  socOzePctOfOze : ℚ
  socOzePctOfTotal : ℚ
  lossIdleOze : ℚ
  lossIdleArbi : ℚ
  lossConvCh : ℚ
  lossConvDisGrid : ℚ
  lossConvDisLoad : ℚ
  wasted : ℚ
  capBlockedDis : ℚ
  capBlockedCh : ℚ
  unserved : ℚ
  bindExp : Bool
  bindImp : Bool


/-- Step 6 and the snapshots (`03_commit.py:278-298`): idle self-discharge
after the hour's flows, SOC snapshots before/after it, and the SOC percentage
diagnostics.  Returns this hour's output row and the SOC pair carried to the
next hour. -/
def finishHour (p : CParams) (s : St) : HourOut × (ℚ × ℚ) :=
  let socOzeB := s.socOze
  let socArbiB := s.socArbi
  let lossOze := if p.lambdaH > eps then socOzeB * p.lambdaH else 0
  let lossArbi := if p.lambdaH > eps then socArbiB * p.lambdaH else 0
  let socOzeA := if p.lambdaH > eps then max 0 (socOzeB - lossOze) else socOzeB
  let socArbiA := if p.lambdaH > eps then max 0 (socArbiB - lossArbi) else socArbiB
  let totalEmax := max 0 (p.emaxOze + p.emaxArbi)
  let out : HourOut :=
    { chFromSurplus := s.chFromSurplus, chFromGrid := s.chFromGrid
      disToLoad := s.disToLoad, disToGrid := s.disToGrid
      eImp := s.eImp, eExp := s.eExp
      expSurplus := s.expSurplus, expArbi := s.expArbi
      impLoad := s.impLoad, impArbi := s.impArbi
      socOzeBeforeIdle := socOzeB, socOzeAfterIdle := socOzeA
      socArbiBeforeIdle := socArbiB, socArbiAfterIdle := socArbiA
      socArbiPctOfArbi := if p.emaxArbi > eps then 100 * socArbiA / p.emaxArbi else 0
      socArbiPctOfTotal := if totalEmax > eps then 100 * socArbiA / totalEmax else 0
      socOzePctOfOze := if p.emaxOze > eps then 100 * socOzeA / p.emaxOze else 0
      socOzePctOfTotal := if totalEmax > eps then 100 * socOzeA / totalEmax else 0
      lossIdleOze := lossOze, lossIdleArbi := lossArbi
      lossConvCh := s.lossConvCh, lossConvDisGrid := s.lossConvDisGrid
      lossConvDisLoad := s.lossConvDisLoad, wasted := s.wasted
      capBlockedDis := s.capBlockedDis, capBlockedCh := s.capBlockedCh
      unserved := s.unserved, bindExp := s.bindExp, bindImp := s.bindImp }
  (out, (socOzeA, socArbiA))

/-- One iteration of the commit loop (`03_commit.py:121-298`). -/
def hourStep (p : CParams) (soc : ℚ × ℚ) (hin : HourIn) : HourOut × (ℚ × ℚ) :=
  finishHour p (step5imp p hin (step5exp p hin (step4 p hin (step3 p hin
    (step2 p (step1 p (initSt soc hin)))))))

/-- The commit loop over the whole hourly axis. -/
def commitRun (p : CParams) (soc : ℚ × ℚ) : List HourIn → List HourOut
  | [] => []
  | hin :: rest =>
      let r := hourStep p soc hin
      r.1 :: commitRun p r.2 rest

/-- A float64 price value: finite, NaN, or ±∞ (`03_commit.py:67-73` is the
only place the pipeline distinguishes these). -/
inductive Px where
  | fin (q : ℚ)
  | nan
  | posInf
  | negInf

/-- `np.isfinite` on a price. -/
def Px.isFinite : Px → Bool
  | .fin _ => true
  | _ => false

/-- `np.where(np.isfinite(p), p, 0.0)` — the effective price used for the
revenue/cost KPIs (`03_commit.py:72-73`). -/
def Px.eff : Px → ℚ
  | .fin q => q
  | _ => 0

/-- Hourly financial KPI row (`03_commit.py:300-314`). -/
structure Kpi where
  revArbiToGrid : ℚ
  revSurplusExport : ℚ
  costGridToArbi : ℚ
  costImportForLoad : ℚ
  cashflowArbi : ℚ
  cashflowNet : ℚ

/-- The financial KPIs of one hour (`03_commit.py:300-314`): flows priced at
the effective (finite-or-zero) prices. -/
def kpiHour (o : HourOut) (pImp pExp : Px) : Kpi :=
  { revArbiToGrid := o.expArbi * pExp.eff
    revSurplusExport := o.expSurplus * pExp.eff
    costGridToArbi := o.impArbi * pImp.eff
    costImportForLoad := o.impLoad * pImp.eff
    cashflowArbi := o.expArbi * pExp.eff - o.impArbi * pImp.eff
    cashflowNet := o.expArbi * pExp.eff + o.expSurplus * pExp.eff
      - o.impArbi * pImp.eff - o.impLoad * pImp.eff }

/-- The complete output of the commit stage that the claims refer to: the
hourly rows, the KPI rows, and the emitted price columns, which are the input
price vectors unchanged (`03_commit.py:356-358`). -/
structure StageOut where
  hours : List HourOut
  kpis : List Kpi
  priceImportCol : List Px
  priceExportCol : List Px

/-- The commit stage (`03_commit.py` `run`): the hourly loop, then the KPI
vectors, passing the raw price columns through. -/
def commitStage (p : CParams) (soc : ℚ × ℚ) (ins : List HourIn)
    (pImp pExp : List Px) : StageOut :=
  let hours := commitRun p soc ins
  { hours := hours
    kpis := (hours.zip (pImp.zip pExp)).map fun x => kpiHour x.1 x.2.1 x.2.2
    priceImportCol := pImp
    priceExportCol := pExp }

/-- Replace every non-finite price by the finite price 0 (what the claim
C8 phrases as "as if those prices were 0 PLN/MWh"). -/
def sanitize (l : List Px) : List Px :=
  l.map fun q => if q.isFinite then q else .fin 0

/-- The stage-06 range check on the SOC share columns
(`06_validate.py:151-185`): a row passes only when the value is in `[0,1]`. -/
def validatorSocPctOk (x : ℚ) : Prop := 0 ≤ x ∧ x ≤ 1

theorem eps_pos : (0 : ℚ) < eps := by norm_num [eps]

theorem div_eps_nonneg {a b : ℚ} (ha : eps < a) (hb : eps < b) : 0 ≤ a / b :=
  div_nonneg (by linarith [eps_pos]) (by linarith [eps_pos])

/-- The SOC invariant on the working state: both pools within `[0, emax]`. -/
def SocInv (p : CParams) (s : St) : Prop :=
  0 ≤ s.socOze ∧ s.socOze ≤ p.emaxOze ∧ 0 ≤ s.socArbi ∧ s.socArbi ≤ p.emaxArbi

theorem step1_socInv {p : CParams} {s : St}
    (hOze : 0 ≤ p.emaxOze) (hArbi : 0 ≤ p.emaxArbi)
    (h : SocInv p s) : SocInv p (step1 p s) := by
  obtain ⟨h1, h2, h3, h4⟩ := h
  have he := eps_pos
  unfold SocInv
  simp only [step1]
  split_ifs <;>
    refine ⟨?_, ?_, ?_, ?_⟩ <;>
    dsimp only <;>
    first
      | assumption
      | exact min_le_left _ _
      | exact le_max_left _ _
      | (refine le_min (by assumption) (by linarith))
      | (refine max_le (by assumption) (by linarith))

set_option maxHeartbeats 2000000 in
theorem step2_socInv {p : CParams} {s : St}
    (hOze : 0 ≤ p.emaxOze) (hArbi : 0 ≤ p.emaxArbi)
    (h : SocInv p s) : SocInv p (step2 p s) := by
  obtain ⟨h1, h2, h3, h4⟩ := h
  have he := eps_pos
  unfold SocInv
  simp only [step2]
  split_ifs <;>
    refine ⟨?_, ?_, ?_, ?_⟩ <;>
    dsimp only <;>
    first
      | assumption
      | exact min_le_left _ _
      | exact le_max_left _ _
      | (refine le_min (by assumption) (by linarith))
      | (refine max_le (by assumption) (by linarith))

theorem step3_socInv {p : CParams} {hin : HourIn} {s : St}
    (hOze : 0 ≤ p.emaxOze) (hArbi : 0 ≤ p.emaxArbi) (hEta : 0 < p.etaDis)
    (h : SocInv p s) : SocInv p (step3 p hin s) := by
  obtain ⟨h1, h2, h3, h4⟩ := h
  have he := eps_pos
  unfold SocInv
  simp only [step3]
  split_ifs with c1 c2 c3 <;>
    refine ⟨?_, ?_, ?_, ?_⟩ <;>
    dsimp only <;>
    first
      | assumption
      | exact min_le_left _ _
      | exact le_max_left _ _
      | (refine max_le (by assumption) (by
          have hb : (0:ℚ) ≤ min s.socArbi s.disB := le_min h3 (by linarith)
          linarith [le_min (div_eps_nonneg c2 c3) hb]))
      | (refine max_le (by assumption) (by
          have hb : (0:ℚ) ≤ min s.socArbi s.disB := le_min h3 (by linarith)
          linarith [le_min (le_of_lt (lt_trans he c2)) hb]))

theorem step4_socInv {p : CParams} {hin : HourIn} {s : St}
    (hOze : 0 ≤ p.emaxOze) (hArbi : 0 ≤ p.emaxArbi)
    (h : SocInv p s) : SocInv p (step4 p hin s) := by
  obtain ⟨h1, h2, h3, h4⟩ := h
  have he := eps_pos
  unfold SocInv
  simp only [step4]
  split_ifs <;>
    refine ⟨?_, ?_, ?_, ?_⟩ <;>
    dsimp only <;>
    first
      | assumption
      | exact min_le_left _ _
      | exact le_max_left _ _
      | (refine le_min (by assumption) (by linarith))
      | (refine max_le (by assumption) (by linarith))

theorem step5exp_socInv {p : CParams} {hin : HourIn} {s : St}
    (hOze : 0 ≤ p.emaxOze) (hArbi : 0 ≤ p.emaxArbi)
    (h : SocInv p s) : SocInv p (step5exp p hin s) := by
  obtain ⟨h1, h2, h3, h4⟩ := h
  have he := eps_pos
  unfold SocInv
  simp only [step5exp]
  split_ifs <;>
    refine ⟨?_, ?_, ?_, ?_⟩ <;>
    dsimp only <;>
    first
      | assumption
      | exact min_le_left _ _
      | exact le_max_left _ _
      | (refine le_min (by assumption) (by linarith))
      | (refine le_min (by assumption) (by
          rename_i hcut heta
          linarith [div_eps_nonneg hcut heta]))
      | (refine le_min (by assumption) (by
          rename_i hcut heta hx
          linarith [div_eps_nonneg hcut heta]))
      | (refine le_min (by assumption) (by
          rename_i hcut heta hx hy
          linarith [div_eps_nonneg hcut heta]))

theorem step5imp_socInv {p : CParams} {hin : HourIn} {s : St}
    (hOze : 0 ≤ p.emaxOze) (hArbi : 0 ≤ p.emaxArbi)
    (h : SocInv p s) : SocInv p (step5imp p hin s) := by
  obtain ⟨h1, h2, h3, h4⟩ := h
  have he := eps_pos
  unfold SocInv
  simp only [step5imp]
  split_ifs <;>
    refine ⟨?_, ?_, ?_, ?_⟩ <;>
    dsimp only <;>
    first
      | assumption
      | exact min_le_left _ _
      | exact le_max_left _ _
      | (refine le_min (by assumption) (by linarith))
      | (refine max_le (by assumption) (by linarith))

/-- SOC bounds of one hour's output row and carried SOC pair. -/
def outSocOk (p : CParams) (o : HourOut) : Prop :=
  0 ≤ o.socOzeBeforeIdle ∧ o.socOzeBeforeIdle ≤ p.emaxOze ∧
  0 ≤ o.socOzeAfterIdle ∧ o.socOzeAfterIdle ≤ p.emaxOze ∧
  0 ≤ o.socArbiBeforeIdle ∧ o.socArbiBeforeIdle ≤ p.emaxArbi ∧
  0 ≤ o.socArbiAfterIdle ∧ o.socArbiAfterIdle ≤ p.emaxArbi

theorem finishHour_socOk {p : CParams} {s : St}
    (hOze : 0 ≤ p.emaxOze) (hArbi : 0 ≤ p.emaxArbi)
    (h : SocInv p s) :
    outSocOk p (finishHour p s).1 ∧
      (0 ≤ (finishHour p s).2.1 ∧ (finishHour p s).2.1 ≤ p.emaxOze ∧
       0 ≤ (finishHour p s).2.2 ∧ (finishHour p s).2.2 ≤ p.emaxArbi) := by
  obtain ⟨h1, h2, h3, h4⟩ := h
  have he := eps_pos
  unfold outSocOk
  simp only [finishHour]
  split_ifs with c1 <;>
    refine ⟨⟨?_, ?_, ?_, ?_, ?_, ?_, ?_, ?_⟩, ?_, ?_, ?_, ?_⟩ <;>
    dsimp only <;>
    first
      | assumption
      | exact le_max_left _ _
      | (refine max_le (by assumption) (by nlinarith))

theorem hourStep_socOk {p : CParams} {hin : HourIn} {soc : ℚ × ℚ}
    (hOze0 : 0 ≤ soc.1) (hOze0' : soc.1 ≤ p.emaxOze)
    (hArbi0 : 0 ≤ soc.2) (hArbi0' : soc.2 ≤ p.emaxArbi)
    (hEta : 0 < p.etaDis) :
    outSocOk p (hourStep p soc hin).1 ∧
      (0 ≤ (hourStep p soc hin).2.1 ∧ (hourStep p soc hin).2.1 ≤ p.emaxOze ∧
       0 ≤ (hourStep p soc hin).2.2 ∧ (hourStep p soc hin).2.2 ≤ p.emaxArbi) := by
  have hOze : 0 ≤ p.emaxOze := le_trans hOze0 hOze0'
  have hArbi : 0 ≤ p.emaxArbi := le_trans hArbi0 hArbi0'
  have h0 : SocInv p (initSt soc hin) := ⟨hOze0, hOze0', hArbi0, hArbi0'⟩
  exact finishHour_socOk hOze hArbi
    (step5imp_socInv hOze hArbi (step5exp_socInv hOze hArbi
      (step4_socInv hOze hArbi (step3_socInv hOze hArbi hEta
        (step2_socInv hOze hArbi (step1_socInv hOze hArbi h0))))))

theorem commitRun_socOk {p : CParams} (hEta : 0 < p.etaDis) :
    ∀ (ins : List HourIn) (soc : ℚ × ℚ),
      0 ≤ soc.1 → soc.1 ≤ p.emaxOze → 0 ≤ soc.2 → soc.2 ≤ p.emaxArbi →
      ∀ o ∈ commitRun p soc ins, outSocOk p o := by
  intro ins
  induction ins with
  | nil => intro soc _ _ _ _ o ho; simp [commitRun] at ho
  | cons hin rest ih =>
      intro soc h1 h2 h3 h4 o ho
      obtain ⟨hout, hn1, hn2, hn3, hn4⟩ :=
        @hourStep_socOk p hin soc h1 h2 h3 h4 hEta
      simp only [commitRun, List.mem_cons] at ho
      rcases ho with rfl | ho
      · exact hout
      · exact ih _ hn1 hn2 hn3 hn4 o ho

/-- Facts about this hour's AC flow accumulators that hold when the cap
enforcement starts: candidate flows are non-negative, and the ARBI-side flows
are either zero or strictly above `EPS` (they are only ever increased under an
`> EPS` guard). -/
def FlowInv (s : St) : Prop :=
  0 ≤ s.expSurplus ∧ (s.expArbi = 0 ∨ eps < s.expArbi) ∧
  0 ≤ s.impLoad ∧ (s.impArbi = 0 ∨ eps < s.impArbi)

theorem initSt_flowInv (soc : ℚ × ℚ) (hin : HourIn) : FlowInv (initSt soc hin) :=
  ⟨le_refl 0, Or.inl rfl, le_refl 0, Or.inl rfl⟩

theorem step1_flowInv {p : CParams} {s : St} (h : FlowInv s) : FlowInv (step1 p s) := by
  obtain ⟨h1, h2, h3, h4⟩ := h
  have he := eps_pos
  unfold FlowInv
  simp only [step1]
  split_ifs <;> (try dsimp only at *) <;>
    refine ⟨?_, ?_, ?_, ?_⟩ <;>
    first
      | assumption
      | linarith

theorem step2_flowInv {p : CParams} {s : St} (h : FlowInv s) : FlowInv (step2 p s) := by
  obtain ⟨h1, h2, h3, h4⟩ := h
  have he := eps_pos
  unfold FlowInv
  simp only [step2]
  split_ifs <;> (try dsimp only at *) <;>
    refine ⟨?_, ?_, ?_, ?_⟩ <;>
    first
      | assumption
      | linarith

theorem step3_flowInv {p : CParams} {hin : HourIn} {s : St}
    (h : FlowInv s) : FlowInv (step3 p hin s) := by
  obtain ⟨h1, h2, h3, h4⟩ := h
  have he := eps_pos
  unfold FlowInv
  simp only [step3]
  split_ifs <;> (try dsimp only at *) <;>
    refine ⟨?_, ?_, ?_, ?_⟩ <;>
    first
      | assumption
      | (rcases h2 with hz | hz <;> right <;> linarith)

theorem step4_flowInv {p : CParams} {hin : HourIn} {s : St}
    (hetaCh1 : p.etaCh ≤ 1) (h : FlowInv s) : FlowInv (step4 p hin s) := by
  obtain ⟨h1, h2, h3, h4⟩ := h
  have he := eps_pos
  unfold FlowInv
  simp only [step4]
  split_ifs with c1 c2 <;> (try dsimp only at *) <;>
    refine ⟨?_, ?_, ?_, ?_⟩ <;>
    first
      | assumption
      | (have hd : min (hin.propCh * p.etaCh) (min (max 0 (p.emaxArbi - s.socArbi)) s.chB)
            ≤ min (hin.propCh * p.etaCh) (min (max 0 (p.emaxArbi - s.socArbi)) s.chB) / p.etaCh := by
          rw [le_div_iff (lt_trans he c2)]
          nlinarith [c1, hetaCh1, he]
         rcases h4 with hz | hz <;> right <;> linarith)
      | (rcases h4 with hz | hz <;> right <;> linarith)

theorem step5exp_imp_eq (p : CParams) (hin : HourIn) (s : St) :
    (step5exp p hin s).impLoad = s.impLoad ∧
    (step5exp p hin s).impArbi = s.impArbi ∧
    (step5exp p hin s).expSurplus + (step5exp p hin s).expArbi ≤ s.expSurplus + s.expArbi := by
  have he := eps_pos
  simp only [step5exp]
  split_ifs <;> (try dsimp only at *) <;>
    refine ⟨rfl, rfl, ?_⟩ <;>
    first
      | linarith
      | nlinarith [min_le_left s.expArbi (s.expSurplus + s.expArbi - hin.capGridExport),
          min_le_left s.expSurplus (s.expSurplus + s.expArbi - hin.capGridExport -
            min s.expArbi (s.expSurplus + s.expArbi - hin.capGridExport))]

theorem step5imp_exp_eq (p : CParams) (hin : HourIn) (s : St) :
    (step5imp p hin s).expSurplus = s.expSurplus ∧
    (step5imp p hin s).expArbi = s.expArbi := by
  simp only [step5imp]
  split_ifs <;> (try dsimp only at *) <;> exact ⟨rfl, rfl⟩

theorem step5exp_capOk {p : CParams} {hin : HourIn} {s : St}
    (hcap : 0 ≤ hin.capGridExport)
    (hS : 0 ≤ s.expSurplus) (hA : s.expArbi = 0 ∨ eps < s.expArbi) :
    (step5exp p hin s).expSurplus + (step5exp p hin s).expArbi
      ≤ hin.capGridExport + eps := by
  have he := eps_pos
  simp only [step5exp]
  split_ifs <;> (try dsimp only at *) <;>
    rcases hA with hz | hz <;>
    rcases min_cases s.expArbi (s.expSurplus + s.expArbi - hin.capGridExport) with
      ⟨hm1, hm1'⟩ | ⟨hm1, hm1'⟩ <;>
    rcases min_cases s.expSurplus (s.expSurplus + s.expArbi - hin.capGridExport -
        min s.expArbi (s.expSurplus + s.expArbi - hin.capGridExport)) with
      ⟨hm2, hm2'⟩ | ⟨hm2, hm2'⟩ <;>
    linarith

theorem step5imp_capOk {p : CParams} {hin : HourIn} {s : St}
    (hcap : 0 ≤ hin.capGridImport)
    (hL : 0 ≤ s.impLoad) (hA : s.impArbi = 0 ∨ eps < s.impArbi) :
    (step5imp p hin s).impLoad + (step5imp p hin s).impArbi
      ≤ hin.capGridImport + eps := by
  have he := eps_pos
  simp only [step5imp]
  split_ifs <;> (try dsimp only at *) <;>
    rcases hA with hz | hz <;>
    rcases min_cases s.impArbi (s.impLoad + s.impArbi - hin.capGridImport) with
      ⟨hm1, hm1'⟩ | ⟨hm1, hm1'⟩ <;>
    rcases min_cases s.impLoad (s.impLoad + s.impArbi - hin.capGridImport -
        min s.impArbi (s.impLoad + s.impArbi - hin.capGridImport)) with
      ⟨hm2, hm2'⟩ | ⟨hm2, hm2'⟩ <;>
    linarith

theorem finishHour_flows (p : CParams) (s : St) :
    (finishHour p s).1.expSurplus = s.expSurplus ∧
    (finishHour p s).1.expArbi = s.expArbi ∧
    (finishHour p s).1.impLoad = s.impLoad ∧
    (finishHour p s).1.impArbi = s.impArbi :=
  ⟨rfl, rfl, rfl, rfl⟩

theorem hourStep_capOk {p : CParams} {hin : HourIn} {soc : ℚ × ℚ}
    (hcapE : 0 ≤ hin.capGridExport) (hcapI : 0 ≤ hin.capGridImport)
    (hetaCh1 : p.etaCh ≤ 1) :
    (hourStep p soc hin).1.expSurplus + (hourStep p soc hin).1.expArbi
        ≤ hin.capGridExport + eps ∧
    (hourStep p soc hin).1.impLoad + (hourStep p soc hin).1.impArbi
        ≤ hin.capGridImport + eps := by
  have hf4 : FlowInv (step4 p hin (step3 p hin (step2 p (step1 p (initSt soc hin))))) :=
    step4_flowInv hetaCh1 (step3_flowInv (step2_flowInv (step1_flowInv
      (initSt_flowInv soc hin))))
  obtain ⟨f1, f2, f3, f4⟩ := hf4
  set s4 := step4 p hin (step3 p hin (step2 p (step1 p (initSt soc hin)))) with hs4
  obtain ⟨e1, e2, _⟩ := step5exp_imp_eq p hin s4
  have hexp : (step5exp p hin s4).expSurplus + (step5exp p hin s4).expArbi
      ≤ hin.capGridExport + eps := step5exp_capOk hcapE f1 f2
  have himp : (step5imp p hin (step5exp p hin s4)).impLoad
      + (step5imp p hin (step5exp p hin s4)).impArbi ≤ hin.capGridImport + eps :=
    step5imp_capOk hcapI (e1 ▸ f3) (e2 ▸ f4)
  obtain ⟨g1, g2⟩ := step5imp_exp_eq p hin (step5exp p hin s4)
  obtain ⟨o1, o2, o3, o4⟩ :=
    finishHour_flows p (step5imp p hin (step5exp p hin s4))
  constructor
  · simp only [hourStep, ← hs4]
    rw [o1, o2, g1, g2]
    exact hexp
  · simp only [hourStep, ← hs4]
    rw [o3, o4]
    exact himp

theorem commitRun_capOk {p : CParams} (hetaCh1 : p.etaCh ≤ 1) :
    ∀ (ins : List HourIn) (soc : ℚ × ℚ),
      (∀ hin ∈ ins, 0 ≤ hin.capGridExport ∧ 0 ≤ hin.capGridImport) →
      ∀ x ∈ (commitRun p soc ins).zip ins,
        x.1.expSurplus + x.1.expArbi ≤ x.2.capGridExport + eps ∧
        x.1.impLoad + x.1.impArbi ≤ x.2.capGridImport + eps := by
  intro ins
  induction ins with
  | nil => intro soc _ x hx; simp [commitRun] at hx
  | cons hin rest ih =>
      intro soc hcaps x hx
      obtain ⟨hc1, hc2⟩ := hcaps hin (List.mem_cons_self _ _)
      simp only [commitRun, List.zip_cons_cons, List.mem_cons] at hx
      rcases hx with rfl | hx
      · exact hourStep_capOk hc1 hc2 hetaCh1
      · exact ih _ (fun h hh => hcaps h (List.mem_cons_of_mem _ hh)) x hx

theorem Px.eff_ite (q : Px) : (if q.isFinite then q else Px.fin 0).eff = q.eff := by
  cases q <;> rfl

theorem kpis_sanitize :
    ∀ (hs : List HourOut) (a b : List Px),
      ((hs.zip ((sanitize a).zip (sanitize b))).map fun x => kpiHour x.1 x.2.1 x.2.2)
        = (hs.zip (a.zip b)).map fun x => kpiHour x.1 x.2.1 x.2.2
  | [], _, _ => by simp
  | _ :: _, [], _ => by simp [sanitize]
  | _ :: _, _ :: _, [] => by simp [sanitize]
  | o :: hs, q1 :: a, q2 :: b => by
      simp only [sanitize, List.map_cons, List.zip_cons_cons]
      have hrec := kpis_sanitize hs a b
      simp only [sanitize] at hrec
      rw [hrec]
      simp [kpiHour, Px.eff_ite]

end Commit

/-- **C1.** For every input to the commit stage with initial SOC values in
bounds, non-negative caps, efficiencies in `(0,1]` and self-discharge
`λ_h ∈ [0,1)`, every per-hour SOC snapshot it emits (before and after idle
self-discharge, for both pools) satisfies `0 ≤ soc_oze ≤ emax_oze` and
`0 ≤ soc_arbi ≤ emax_arbi`, including at hours where the grid-cap enforcement
reverses an ARBI charge or discharge. -/
theorem C1_commit_soc_bounds (p : Commit.CParams) (soc0 : ℚ × ℚ)
    (ins : List Commit.HourIn)
    (hOze0 : 0 ≤ soc0.1) (hOze0' : soc0.1 ≤ p.emaxOze)
    (hArbi0 : 0 ≤ soc0.2) (hArbi0' : soc0.2 ≤ p.emaxArbi)
    (hcaps : ∀ hin ∈ ins, 0 ≤ hin.capBessCh ∧ 0 ≤ hin.capBessDis ∧
      0 ≤ hin.capGridImport ∧ 0 ≤ hin.capGridExport)
    (hetaCh0 : 0 < p.etaCh) (hetaCh1 : p.etaCh ≤ 1)
    (hetaDis0 : 0 < p.etaDis) (hetaDis1 : p.etaDis ≤ 1)
    (hlam0 : 0 ≤ p.lambdaH) (hlam1 : p.lambdaH < 1) :
    ∀ o ∈ Commit.commitRun p soc0 ins, Commit.outSocOk p o :=
  Commit.commitRun_socOk hetaDis0 ins soc0 hOze0 hOze0' hArbi0 hArbi0'

/-- Concrete parameters for the C1 witness: `emax_arbi = 2`, `emax_oze = 3`,
`η = 1`, `λ = 1/10`. -/
def c1wP : Commit.CParams :=
  { emaxArbi := 2, emaxOze := 3, etaCh := 1, etaDis := 1,
    lambdaH := 1/10, arbiDisToLoad := true }

/-- Concrete hour input for the C1 witness. -/
def c1wH : Commit.HourIn :=
  { capGridExport := 5, capGridImport := 5, capBessCh := 5, capBessDis := 5,
    surplus := 2, deficit := 0, propDis := 0, propCh := 1 }

theorem C1_commit_soc_bounds_witness :
    Commit.outSocOk c1wP (Commit.hourStep c1wP (1, 1) c1wH).1 :=
  C1_commit_soc_bounds c1wP (1, 1) [c1wH]
    (by norm_num) (by norm_num [c1wP]) (by norm_num) (by norm_num [c1wP])
    (by intro hin h; simp only [List.mem_singleton] at h; subst h; norm_num [c1wH])
    (by norm_num [c1wP]) (by norm_num [c1wP]) (by norm_num [c1wP])
    (by norm_num [c1wP]) (by norm_num [c1wP]) (by norm_num [c1wP])
    (Commit.hourStep c1wP (1, 1) c1wH).1 (List.mem_cons_self _ _)

/-- **C2.** For every input to the commit stage with non-negative finite grid
cap vectors (and charge efficiency in `(0,1]` as the data model requires),
after the cap-enforcement step of each hour the realized AC flows satisfy
`export_from_surplus + export_from_arbi ≤ cap_grid_export_ac + ε` and
`import_for_load + import_for_arbi ≤ cap_grid_import_ac + ε`, where the
enforcement cuts the ARBI-side flow first and then the surplus/load-side
flow. -/
theorem C2_grid_cap_enforced (p : Commit.CParams) (soc0 : ℚ × ℚ)
    (ins : List Commit.HourIn)
    (hcaps : ∀ hin ∈ ins, 0 ≤ hin.capGridExport ∧ 0 ≤ hin.capGridImport)
    (hetaCh0 : 0 < p.etaCh) (hetaCh1 : p.etaCh ≤ 1) :
    ∀ x ∈ (Commit.commitRun p soc0 ins).zip ins,
      x.1.expSurplus + x.1.expArbi ≤ x.2.capGridExport + eps ∧
      x.1.impLoad + x.1.impArbi ≤ x.2.capGridImport + eps :=
  Commit.commitRun_capOk hetaCh1 ins soc0 hcaps

/-- Concrete hour for the C2 witness: surplus and an ARBI discharge proposal
exceed the 1-MWh export cap, triggering the enforcement. -/
def c2wH : Commit.HourIn :=
  { capGridExport := 1, capGridImport := 1, capBessCh := 5, capBessDis := 5,
    surplus := 5, deficit := 0, propDis := 1/2, propCh := 0 }

theorem C2_grid_cap_enforced_witness :
    (Commit.hourStep c1wP (1, 1) c2wH).1.expSurplus
        + (Commit.hourStep c1wP (1, 1) c2wH).1.expArbi
      ≤ c2wH.capGridExport + eps ∧
    (Commit.hourStep c1wP (1, 1) c2wH).1.impLoad
        + (Commit.hourStep c1wP (1, 1) c2wH).1.impArbi
      ≤ c2wH.capGridImport + eps :=
  C2_grid_cap_enforced c1wP (1, 1) [c2wH]
    (by intro hin h; simp only [List.mem_singleton] at h; subst h; norm_num [c2wH])
    (by norm_num [c1wP]) (by norm_num [c1wP])
    ((Commit.hourStep c1wP (1, 1) c2wH).1, c2wH) (List.mem_cons_self _ _)

/-- **C4.** For every input, each hourly KPI row of the commit stage satisfies
`cashflow_arbi = rev_arbi_to_grid − cost_grid_to_arbi` exactly and
`cashflow_net = cashflow_arbi + rev_surplus_export − cost_import_for_load`
exactly. -/
theorem C4_cashflow_identities (p : Commit.CParams) (soc0 : ℚ × ℚ)
    (ins : List Commit.HourIn) (pImp pExp : List Commit.Px) :
    ∀ k ∈ (Commit.commitStage p soc0 ins pImp pExp).kpis,
      k.cashflowArbi = k.revArbiToGrid - k.costGridToArbi ∧
      k.cashflowNet = k.cashflowArbi + k.revSurplusExport - k.costImportForLoad := by
  intro k hk
  simp only [Commit.commitStage, List.mem_map] at hk
  obtain ⟨x, -, rfl⟩ := hk
  refine ⟨rfl, ?_⟩
  simp only [Commit.kpiHour]
  ring

theorem C4_cashflow_identities_witness :
    (Commit.kpiHour (Commit.hourStep c1wP (1, 1) c1wH).1
        (Commit.Px.fin 300) (Commit.Px.fin 400)).cashflowArbi
      = (Commit.kpiHour (Commit.hourStep c1wP (1, 1) c1wH).1
          (Commit.Px.fin 300) (Commit.Px.fin 400)).revArbiToGrid
        - (Commit.kpiHour (Commit.hourStep c1wP (1, 1) c1wH).1
            (Commit.Px.fin 300) (Commit.Px.fin 400)).costGridToArbi ∧
    (Commit.kpiHour (Commit.hourStep c1wP (1, 1) c1wH).1
        (Commit.Px.fin 300) (Commit.Px.fin 400)).cashflowNet
      = (Commit.kpiHour (Commit.hourStep c1wP (1, 1) c1wH).1
          (Commit.Px.fin 300) (Commit.Px.fin 400)).cashflowArbi
        + (Commit.kpiHour (Commit.hourStep c1wP (1, 1) c1wH).1
            (Commit.Px.fin 300) (Commit.Px.fin 400)).revSurplusExport
        - (Commit.kpiHour (Commit.hourStep c1wP (1, 1) c1wH).1
            (Commit.Px.fin 300) (Commit.Px.fin 400)).costImportForLoad :=
  C4_cashflow_identities c1wP (1, 1) [c1wH] [Commit.Px.fin 300] [Commit.Px.fin 400]
    (Commit.kpiHour (Commit.hourStep c1wP (1, 1) c1wH).1
      (Commit.Px.fin 300) (Commit.Px.fin 400)) (List.mem_cons_self _ _)

/-- **C8.** For every input whose price vectors contain a non-finite entry
(NaN or ±∞) at some hour, the commit stage computes all revenue, cost and
cashflow outputs exactly as if those prices were 0 PLN/MWh, while the
`price_import`/`price_export` columns it emits are exactly the input price
vectors, non-finite entries included. -/
theorem C8_nonfinite_prices (p : Commit.CParams) (soc0 : ℚ × ℚ)
    (ins : List Commit.HourIn) (pImp pExp : List Commit.Px)
    (hnf : ∃ q ∈ pImp ++ pExp, q.isFinite = false) :
    (Commit.commitStage p soc0 ins pImp pExp).kpis =
      (Commit.commitStage p soc0 ins (Commit.sanitize pImp)
        (Commit.sanitize pExp)).kpis ∧
    (Commit.commitStage p soc0 ins pImp pExp).priceImportCol = pImp ∧
    (Commit.commitStage p soc0 ins pImp pExp).priceExportCol = pExp := by
  refine ⟨?_, rfl, rfl⟩
  simp only [Commit.commitStage]
  exact (Commit.kpis_sanitize _ pImp pExp).symm

theorem C8_nonfinite_prices_witness :
    ((∃ q ∈ ([Commit.Px.nan] ++ [Commit.Px.posInf]), q.isFinite = false) ∧
      (Commit.commitStage c1wP (1, 1) [c1wH] [Commit.Px.nan]
          [Commit.Px.posInf]).kpis =
        (Commit.commitStage c1wP (1, 1) [c1wH]
          (Commit.sanitize [Commit.Px.nan])
          (Commit.sanitize [Commit.Px.posInf])).kpis) :=
  have h : ∃ q ∈ ([Commit.Px.nan] ++ [Commit.Px.posInf]), q.isFinite = false :=
    ⟨Commit.Px.nan, by simp, rfl⟩
  ⟨h, (C8_nonfinite_prices c1wP (1, 1) [c1wH] [Commit.Px.nan] [Commit.Px.posInf] h).1⟩

namespace Proposer

/-- One possible realization of `np.argsort(price_import[idx])`
(`02_proposer.py:160`): ascending price with ties resolved to the earlier
hour.  numpy's default sort does *not* guarantee this (or any) tie order, so
this relation is only used to *compute* one valid outcome — the concrete runs
below feed it tie-free prices, on which all valid outcomes agree.  The C3
statement itself quantifies over every outcome via `ValidArgsortAsc`. -/
def lowLe (pi : ℕ → ℚ) (a b : ℕ) : Prop :=
  pi a < pi b ∨ (pi a = pi b ∧ a ≤ b)

/-- One possible realization of `np.argsort(-price_export[idx])`
(`02_proposer.py:162`): descending price with ties resolved to the earlier
hour; see `lowLe` for the caveat on numpy's unstable tie order. -/
def highLe (pe : ℕ → ℚ) (a b : ℕ) : Prop :=
  pe b < pe a ∨ (pe a = pe b ∧ a ≤ b)

instance (pi : ℕ → ℚ) : DecidableRel (lowLe pi) := fun a b =>
  decidable_of_iff (pi a < pi b ∨ (pi a = pi b ∧ a ≤ b)) Iff.rfl

instance (pe : ℕ → ℚ) : DecidableRel (highLe pe) := fun a b =>
  decidable_of_iff (pe b < pe a ∨ (pe a = pe b ∧ a ≤ b)) Iff.rfl

/-- The charge candidates of one day (`02_proposer.py:160`), computed with the
`lowLe` realization of the argsort: the `K` cheapest-import hours of the
day's index list. -/
def candLow (K : ℕ) (pi : ℕ → ℚ) (idx : List ℕ) : List ℕ :=
  (List.insertionSort (lowLe pi) idx).take K

/-- The discharge candidates of one day (`02_proposer.py:162`), computed with
the `highLe` realization of the argsort: the `K` most expensive export hours
of the day's index list. -/
def candHigh (K : ℕ) (pe : ℕ → ℚ) (idx : List ℕ) : List ℕ :=
  (List.insertionSort (highLe pe) idx).take K

/-- The greedy pairing loop (`02_proposer.py:164-176`), parameterized by the
choice function applied to the used-high set and the current low hour. -/
def greedy (pick : List ℕ → ℕ → Option ℕ) : List ℕ → List ℕ → List (ℕ × ℕ)
  | [], _ => []
  | l :: ls, used =>
      match pick used l with
      | none => greedy pick ls used
      | some h => (l, h) :: greedy pick ls (h :: used)

/-- The source's choice (`02_proposer.py:169`):
`next(h for h in cand_high if h not in used_high and h > i_low)`. -/
def pickCode (candH : List ℕ) (used : List ℕ) (l : ℕ) : Option ℕ :=
  candH.find? fun h => !used.contains h && decide (l < h)

/-- Pairing of one calendar day (`_build_daily_pairs`, inner loop): pair the
time-sorted charge candidates greedily against the price-sorted discharge
candidates. -/
def dayPairs (K : ℕ) (pi pe : ℕ → ℚ) (idx : List ℕ) : List (ℕ × ℕ) :=
  greedy (pickCode (candHigh K pe idx))
    (List.insertionSort (· ≤ ·) (candLow K pi idx)) []

/-- A valid outcome of `np.argsort(key[idx])` (`02_proposer.py:160`): numpy's
default sort guarantees only that the result is some permutation of the
day's hour indices listed in non-decreasing key order; the relative order of
tied keys is implementation-defined (the default quicksort is not stable). -/
def ValidArgsortAsc (key : ℕ → ℚ) (idx perm : List ℕ) : Prop :=
  perm.Perm idx ∧ perm.Pairwise fun a b => key a ≤ key b

/-- A valid outcome of `np.argsort(-key[idx])` (`02_proposer.py:162`): some
permutation of the day's hour indices in non-increasing key order, the tie
order again implementation-defined. -/
def ValidArgsortDesc (key : ℕ → ℚ) (idx perm : List ℕ) : Prop :=
  perm.Perm idx ∧ perm.Pairwise fun a b => key b ≤ key a

/-- Pairing of one calendar day as a function of the two argsort outcomes
(`_build_daily_pairs`, `02_proposer.py:158-176`): keep the first `K` entries
of each sorted index permutation, re-sort the low candidates by hour
(`sorted(cand_low)`, line 166) and run the greedy assignment. -/
def dayPairsWith (K : ℕ) (lowPerm highPerm : List ℕ) : List (ℕ × ℕ) :=
  greedy (pickCode (highPerm.take K))
    (List.insertionSort (· ≤ ·) (lowPerm.take K)) []

/-- `np.unique` over the day keys: sorted distinct values. -/
def dedupSorted : List ℕ → List ℕ
  | [] => []
  | [a] => [a]
  | a :: b :: t => if a = b then dedupSorted (b :: t) else a :: dedupSorted (b :: t)

/-- The day-key values in sorted order without duplicates. -/
def uniqueDays (dateKey : List ℕ) : List ℕ :=
  dedupSorted (List.insertionSort (· ≤ ·) dateKey)

/-- `hours[date_key == day]`: the (ascending) hour indices of one day. -/
def dayIdx (dateKey : List ℕ) (d : ℕ) : List ℕ :=
  (List.range dateKey.length).filter fun i => dateKey.getD i 0 == d

/-- `_build_daily_pairs` (`02_proposer.py:131-177`): the union over days of
the per-day pairings. -/
def buildDailyPairs (K : ℕ) (pi pe : ℕ → ℚ) (dateKey : List ℕ) : List (ℕ × ℕ) :=
  (uniqueDays dateKey).foldl (fun acc d => acc ++ dayPairs K pi pe (dayIdx dateKey d)) []

/-- `k_low_by_hour` lookup: the high hour paired with low hour `i`, if any. -/
def pairHighOfLow (pairs : List (ℕ × ℕ)) (i : ℕ) : Option ℕ :=
  (pairs.find? fun pr => pr.1 == i).map (·.2)

/-- `k_high_by_hour` lookup: the low hour paired with high hour `i`, if any. -/
def pairLowOfHigh (pairs : List (ℕ × ℕ)) (i : ℕ) : Option ℕ :=
  (pairs.find? fun pr => pr.2 == i).map (·.1)

/-- Scalar parameters of the proposer (`02_proposer.py:183-246`). -/
structure PParams where
  emaxArbi : ℚ
  etaCh : ℚ
  etaDis : ℚ
  baseMinProfit : ℚ
  cyclesPerDay : ℕ
  allowCarryOver : Bool
  forceOrder : Bool
  socLowPct : ℚ
  socHighPct : ℚ
  hourBonusCh : ℚ
  hourBonusDis : ℚ
  socBonusCh : ℚ
  socBonusDis : ℚ
  soc0Arbi : ℚ

/-- Vector inputs of the proposer on the hourly axis. -/
structure PIn where
  dateKey : List ℕ
  priceImport : List ℚ
  priceExport : List ℚ
  capGridImport : List ℚ
  capGridExport : List ℚ
  capBessCh : List ℚ
  capBessDis : List ℚ
  bonusChMask : List Bool
  bonusDisMask : List Bool

/-- `cap_eff_ch_ac` (`02_proposer.py:212`). -/
def capEffCh (p : PParams) (inp : PIn) (i : ℕ) : ℚ :=
  min (inp.capGridImport.getD i 0) (inp.capBessCh.getD i 0 / max p.etaCh eps)

/-- `cap_eff_dis_ac` (`02_proposer.py:213`). -/
def capEffDis (p : PParams) (inp : PIn) (i : ℕ) : ℚ :=
  min (inp.capGridExport.getD i 0) (inp.capBessDis.getD i 0 * max p.etaDis eps)

/-- The loop state of the proposer: simulated SOC, pending NET energy of the
current cycle, the previous day key, and the per-day cycle counters. -/
structure PState where
  soc : ℚ
  pending : ℚ
  prevDay : Option ℕ
  cycles : ℕ → ℕ

/-- One emitted row of the proposer.  `pairLow`/`pairHigh` model the source's
`-1` sentinel as `none`; `deltaK` models its NaN as `none`. -/
structure PH where
  thrLow : ℚ
  thrHigh : ℚ
  deltaK : Option ℚ
  decCh : Bool
  decDis : Bool
  decChBase : Bool
  decDisBase : Bool
  propCh : ℚ
  propDis : ℚ
  pending : ℚ
  socSim : ℚ
  inChBonus : Bool
  inDisBonus : Bool
  lowSocHit : Bool
  highSocHit : Bool
  cyclesUsedToday : ℕ
  pairLow : Option ℕ
  pairHigh : Option ℕ

/-- One iteration of the proposer loop (`02_proposer.py:280-384`). -/
def pstep (p : PParams) (inp : PIn) (pairs : List (ℕ × ℕ)) (st : PState)
    (i : ℕ) : PState × PH :=
  let day := inp.dateKey.getD i 0
  let pending0 := if st.prevDay ≠ some day ∧ ¬p.allowCarryOver then 0 else st.pending
  let isLow := pairHighOfLow pairs i
  let isHigh := pairLowOfHigh pairs i
  let inChB := inp.bonusChMask.getD i false
  let inDisB := inp.bonusDisMask.getD i false
  let headroom := max 0 (p.emaxArbi - st.soc)
  let lowHit : Bool := decide (st.soc ≤ p.emaxArbi * (p.socLowPct / 100))
  let highHit : Bool := decide (st.soc ≥ p.emaxArbi * (p.socHighPct / 100))
  let thrL := p.baseMinProfit + (if inChB then p.hourBonusCh else 0) +
    (if lowHit then p.socBonusCh else 0)
  let thrH := p.baseMinProfit + (if inDisB then p.hourBonusDis else 0) +
    (if highHit then p.socBonusDis else 0)
  match isLow, isHigh with
  | none, none =>
      ({ st with pending := pending0, prevDay := some day },
       { thrLow := thrL, thrHigh := thrH, deltaK := none,
         decCh := false, decDis := false, decChBase := false, decDisBase := false,
         propCh := 0, propDis := 0, pending := pending0, socSim := st.soc,
         inChBonus := inChB, inDisBonus := inDisB,
         lowSocHit := lowHit, highSocHit := highHit,
         cyclesUsedToday := st.cycles day, pairLow := none, pairHigh := none })
  | oLow, oHigh =>
      let il := match oLow with
        | some _ => i
        | none => oHigh.getD 0
      let ih := match oLow with
        | some x => x
        | none => i
      let dk := (inp.priceExport.getD ih 0) - (inp.priceImport.getD il 0)
      let decChB : Bool := oLow.isSome && decide (dk - thrL ≥ 0) &&
        decide (headroom > eps) && decide (st.cycles day < p.cyclesPerDay)
      let chargeNet := min (capEffCh p inp i * max p.etaCh eps) headroom
      let doCh : Bool := decChB && decide (chargeNet > eps)
      let propChV := if doCh then chargeNet / max p.etaCh eps else 0
      let soc1 := if doCh then min p.emaxArbi (st.soc + chargeNet) else st.soc
      let pending1 := if doCh then pending0 + chargeNet else pending0
      let canDis0 := min (capEffDis p inp i / max p.etaDis eps) soc1
      let canDis := if p.forceOrder then min canDis0 pending1 else canDis0
      let decDisB : Bool := oHigh.isSome && decide (dk - thrH ≥ 0) &&
        decide (canDis > eps) && decide (st.cycles day < p.cyclesPerDay)
      let propDisV := if decDisB then canDis * max p.etaDis eps else 0
      let soc2 := if decDisB then max 0 (soc1 - canDis) else soc1
      let pending2 := if decDisB then max 0 (pending1 - canDis) else pending1
      let cyc := if decDisB ∧ pending2 ≤ eps then
          (fun d => if d = day then st.cycles day + 1 else st.cycles d)
        else st.cycles
      ({ soc := soc2, pending := pending2, prevDay := some day, cycles := cyc },
       { thrLow := thrL, thrHigh := thrH, deltaK := some dk,
         decCh := doCh, decDis := decDisB, decChBase := decChB, decDisBase := decDisB,
         propCh := propChV, propDis := propDisV, pending := pending2, socSim := soc2,
         inChBonus := inChB, inDisBonus := inDisB,
         lowSocHit := lowHit, highSocHit := highHit,
         cyclesUsedToday := cyc day,
         pairLow := some il, pairHigh := some ih })

/-- The proposer loop over a list of hour indices. -/
def prunAux (p : PParams) (inp : PIn) (pairs : List (ℕ × ℕ)) :
    PState → List ℕ → List PH
  | _, [] => []
  | st, i :: rest =>
      let r := pstep p inp pairs st i
      r.2 :: prunAux p inp pairs r.1 rest

/-- Stage 02 `run`: build the daily pairs from the prices and the day keys,
then iterate the signal loop from the initial simulated state
(`soc = pending = soc0_arbi`, no previous day, zero cycle counters). -/
def prun (p : PParams) (inp : PIn) : List PH :=
  let pairs := buildDailyPairs p.cyclesPerDay
    (fun i => inp.priceImport.getD i 0) (fun i => inp.priceExport.getD i 0)
    inp.dateKey
  prunAux p inp pairs
    { soc := p.soc0Arbi, pending := p.soc0Arbi, prevDay := none, cycles := fun _ => 0 }
    (List.range inp.dateKey.length)

/-- The stage-06 check on the proposer's decision flags
(`06_validate.py:108,116`): a run is rejected when some hour has both
`dec_ch` and `dec_dis` set. -/
def validator02FlagsOk (r : PH) : Prop := ¬(r.decCh = true ∧ r.decDis = true)

theorem greedy_mem {pick : List ℕ → ℕ → Option ℕ} {P : ℕ → ℕ → Prop}
    (hp : ∀ used l h, pick used l = some h → P l h) :
    ∀ (lows used : List ℕ) (pr : ℕ × ℕ), pr ∈ greedy pick lows used →
      pr.1 ∈ lows ∧ P pr.1 pr.2
  | [], _, pr, h => by simp [greedy] at h
  | l :: ls, used, pr, h => by
      rw [greedy] at h
      cases hc : pick used l with
      | none =>
          rw [hc] at h
          obtain ⟨h1, h2⟩ := greedy_mem hp ls used pr h
          exact ⟨List.mem_cons_of_mem _ h1, h2⟩
      | some hh =>
          rw [hc] at h
          rcases List.mem_cons.mp h with rfl | h'
          · exact ⟨List.mem_cons_self _ _, hp used l hh hc⟩
          · obtain ⟨h1, h2⟩ := greedy_mem hp ls (hh :: used) pr h'
            exact ⟨List.mem_cons_of_mem _ h1, h2⟩

theorem sortedPerm_take_facts {r : ℕ → ℕ → Prop} {idx perm : List ℕ} (K : ℕ)
    (hperm : perm.Perm idx) (hsort : perm.Pairwise r) :
    (perm.take K).length ≤ K ∧ (∀ x ∈ perm.take K, x ∈ idx) ∧
    ∀ x ∈ perm.take K, ∀ y ∈ idx, y ∉ perm.take K → r x y := by
  refine ⟨by simpa using List.length_take_le K _, ?_, ?_⟩
  · intro x hx
    exact hperm.mem_iff.mp (List.take_subset _ _ hx)
  · intro x hx y hy hyn
    have hy2 : y ∈ perm := hperm.mem_iff.mpr hy
    rw [← List.take_append_drop K perm] at hy2
    rcases List.mem_append.mp hy2 with hyt | hyd
    · exact absurd hyt hyn
    · exact List.Sorted.rel_of_mem_take_of_mem_drop hsort hx hyd

theorem pickCode_some_spec {candH used : List ℕ} {l h : ℕ}
    (hc : pickCode candH used l = some h) :
    h ∈ candH ∧ h ∉ used ∧ l < h := by
  have hm := List.mem_of_find?_eq_some hc
  have hp := List.find?_some hc
  simp only [Bool.and_eq_true, Bool.not_eq_true', decide_eq_true_eq] at hp
  refine ⟨hm, ?_, hp.2⟩
  simpa using hp.1

theorem pickCode_none_spec {candH used : List ℕ} {l : ℕ}
    (hc : pickCode candH used l = none) :
    ∀ h ∈ candH, h ∉ used → ¬(l < h) := by
  intro h hm hu hl
  have h2 := List.find?_eq_none.mp hc h hm
  simp only [Bool.and_eq_true, Bool.not_eq_true', decide_eq_true_eq, not_and] at h2
  exact absurd hl (h2 (by simpa using hu))

theorem find_max_of_sorted (pe : ℕ → ℚ) (p : ℕ → Bool) :
    ∀ l : List ℕ, l.Pairwise (fun a b => pe b ≤ pe a) →
      ∀ h, l.find? p = some h → ∀ x ∈ l, p x = true → pe x ≤ pe h
  | [], _, h, hf => by simp at hf
  | a :: t, hp, h, hf => by
      obtain ⟨ha, ht⟩ := List.pairwise_cons.mp hp
      intro x hx hpx
      by_cases hpa : p a = true
      · rw [List.find?_cons_of_pos _ hpa, Option.some.injEq] at hf
        subst hf
        rcases List.mem_cons.mp hx with rfl | hx2
        · exact le_refl _
        · exact ha x hx2
      · rw [List.find?_cons_of_neg _ hpa] at hf
        rcases List.mem_cons.mp hx with rfl | hx2
        · exact absurd hpx hpa
        · exact find_max_of_sorted pe p t ht h hf x hx2 hpx

end Proposer

/-- **C3, counterexample to the claimed tie-breaking.** The claim says ties in
the candidate selection go to the earlier hour, but `np.argsort` with numpy's
default (unstable) sort fixes no tie order.  On a three-hour day with
`price_import = [1, 1, 2]`, `price_export = [0, 5, 4]` and one cycle, the
permutation `[1, 0, 2]` is as valid an ascending argsort outcome as the
tie-to-earlier-hour order `[0, 1, 2]`; under the former the day produces no
pair at all, under the latter it produces `(0, 1)`.  The claimed selection is
therefore not a property of the program. -/
theorem C3_tie_break_counterexample :
    Proposer.ValidArgsortAsc (fun i => if i = 2 then (2 : ℚ) else 1)
      [0, 1, 2] [1, 0, 2] ∧
    Proposer.ValidArgsortAsc (fun i => if i = 2 then (2 : ℚ) else 1)
      [0, 1, 2] [0, 1, 2] ∧
    Proposer.ValidArgsortDesc
      (fun i => if i = 0 then (0 : ℚ) else if i = 1 then 5 else 4)
      [0, 1, 2] [1, 2, 0] ∧
    Proposer.dayPairsWith 1 [1, 0, 2] [1, 2, 0] = [] ∧
    Proposer.dayPairsWith 1 [0, 1, 2] [1, 2, 0] = [(0, 1)] := by
  refine ⟨⟨by decide, ?_⟩, ⟨by decide, ?_⟩, ⟨by decide, ?_⟩, rfl, rfl⟩ <;>
    norm_num [List.pairwise_cons]

/-- **C3 (amended).** For every calendar day and *every* outcome of the two
argsorts that numpy's unstable default sort admits (any permutation of the
day's hours non-decreasing in `price_import`, resp. non-increasing in
`price_export`), the pairing keeps at most `cycles_per_day` hours of
lowest import price and at most `cycles_per_day` of highest export price
(every kept hour priced no worse than every dropped hour of its day); every
produced pair consists of a kept low and a kept high with the low strictly
earlier; the greedy choice assigns a low a still-unused strictly-later kept
high of maximal export price, and skips the low exactly when no still-unused
strictly-later kept high exists. -/
theorem C3_daily_pairing_nondet (K : ℕ) (pi pe : ℕ → ℚ)
    (idx lowPerm highPerm : List ℕ)
    (hlow : Proposer.ValidArgsortAsc pi idx lowPerm)
    (hhigh : Proposer.ValidArgsortDesc pe idx highPerm) :
    ((lowPerm.take K).length ≤ K ∧ (∀ x ∈ lowPerm.take K, x ∈ idx) ∧
      ∀ x ∈ lowPerm.take K, ∀ y ∈ idx, y ∉ lowPerm.take K → pi x ≤ pi y) ∧
    ((highPerm.take K).length ≤ K ∧ (∀ x ∈ highPerm.take K, x ∈ idx) ∧
      ∀ x ∈ highPerm.take K, ∀ y ∈ idx, y ∉ highPerm.take K → pe y ≤ pe x) ∧
    (∀ pr ∈ Proposer.dayPairsWith K lowPerm highPerm,
      pr.1 ∈ lowPerm.take K ∧ pr.2 ∈ highPerm.take K ∧ pr.1 < pr.2) ∧
    (∀ used l h, Proposer.pickCode (highPerm.take K) used l = some h →
      h ∈ highPerm.take K ∧ h ∉ used ∧ l < h ∧
        ∀ x ∈ highPerm.take K, x ∉ used → l < x → pe x ≤ pe h) ∧
    (∀ used l, Proposer.pickCode (highPerm.take K) used l = none →
      ∀ h ∈ highPerm.take K, h ∉ used → ¬(l < h)) := by
  refine ⟨Proposer.sortedPerm_take_facts K hlow.1 hlow.2,
    Proposer.sortedPerm_take_facts K hhigh.1 hhigh.2, ?_, ?_, ?_⟩
  · intro pr hpr
    have h := @Proposer.greedy_mem _
      (fun l h => h ∈ highPerm.take K ∧ l < h)
      (fun used l h hc => ⟨(Proposer.pickCode_some_spec hc).1,
        (Proposer.pickCode_some_spec hc).2.2⟩) _ _ pr hpr
    exact ⟨((List.perm_insertionSort _ _).mem_iff).mp h.1, h.2.1, h.2.2⟩
  · intro used l h hc
    obtain ⟨hm, hu, hl⟩ := Proposer.pickCode_some_spec hc
    refine ⟨hm, hu, hl, ?_⟩
    intro x hx hxu hlx
    have hsorted : (highPerm.take K).Pairwise fun a b => pe b ≤ pe a :=
      hhigh.2.sublist (List.take_sublist K highPerm)
    have hfind : (highPerm.take K).find?
        (fun y => !used.contains y && decide (l < y)) = some h := hc
    have hpx : (!used.contains x && decide (l < x)) = true := by
      simp [hxu, hlx]
    exact Proposer.find_max_of_sorted pe _ _ hsorted h hfind x hx hpx
  · intro used l hc
    exact Proposer.pickCode_none_spec hc

theorem C3_daily_pairing_nondet_witness :
    ((0, 1) : ℕ × ℕ).1 ∈ ([0, 1] : List ℕ).take 1 ∧
    ((0, 1) : ℕ × ℕ).2 ∈ ([1, 0] : List ℕ).take 1 ∧
    ((0, 1) : ℕ × ℕ).1 < ((0, 1) : ℕ × ℕ).2 :=
  (C3_daily_pairing_nondet 1 (fun i => (i : ℚ)) (fun i => (i : ℚ))
    [0, 1] [0, 1] [1, 0]
    ⟨List.Perm.refl _, by norm_num [List.pairwise_cons]⟩
    ⟨by decide, by norm_num [List.pairwise_cons]⟩).2.2.1
    (0, 1) (List.mem_cons_self _ _)

/-- Proposer parameters exhibiting the C9 divergence: two cycles per day, no
thresholds or bonuses, unit efficiencies. -/
def c9P : Proposer.PParams :=
  { emaxArbi := 2, etaCh := 1, etaDis := 1, baseMinProfit := 0,
    cyclesPerDay := 2, allowCarryOver := false, forceOrder := false,
    socLowPct := 0, socHighPct := 100, hourBonusCh := 0, hourBonusDis := 0,
    socBonusCh := 0, socBonusDis := 0, soc0Arbi := 0 }

/-- A one-day, three-hour input on which hour 1 is the high hour of the pair
(0,1) and simultaneously the low hour of the pair (1,2). -/
def c9I : Proposer.PIn :=
  { dateKey := [0, 0, 0], priceImport := [0, 1, 2], priceExport := [0, 10, 5],
    capGridImport := [1, 1, 1], capGridExport := [1, 1, 1],
    capBessCh := [1000000, 1000000, 1000000],
    capBessDis := [1000000, 1000000, 1000000],
    bonusChMask := [false, false, false], bonusDisMask := [false, false, false] }

/-- **C9.** The proposer can set both `dec_ch` and `dec_dis` in the same hour:
on the input `c9I` hour 1 is the high of one pair and the low of another of
the same day, and the emitted row has both flags true — which the stage-06
check `validator02FlagsOk` (`COUNT(*) FILTER (WHERE dec_ch AND dec_dis)`)
rejects. -/
theorem C9_both_flags_in_one_hour :
    ∃ r ∈ Proposer.prun c9P c9I, r.decCh = true ∧ r.decDis = true ∧
      ¬ Proposer.validator02FlagsOk r := by
  have hpairs : Proposer.buildDailyPairs c9P.cyclesPerDay
      (fun i => c9I.priceImport.getD i 0)
      (fun i => c9I.priceExport.getD i 0) c9I.dateKey = [(0, 1), (1, 2)] := by
    norm_num [Proposer.buildDailyPairs,
      Proposer.uniqueDays, Proposer.dedupSorted, Proposer.dayIdx, Proposer.dayPairs,
      Proposer.candLow, Proposer.candHigh, Proposer.greedy, Proposer.pickCode,
      Proposer.lowLe, Proposer.highLe,
      List.insertionSort, List.orderedInsert,
      List.range_succ, List.find?, List.filter, eps, c9I, c9P]
  have hrange : List.range c9I.dateKey.length = [0, 1, 2] := by rfl
  have hL0 : Proposer.pairHighOfLow [(0, 1), (1, 2)] 0 = some 1 := by
    simp [Proposer.pairHighOfLow, List.find?]
  have hH0 : Proposer.pairLowOfHigh [(0, 1), (1, 2)] 0 = none := by
    simp [Proposer.pairLowOfHigh, List.find?]
  have hL1 : Proposer.pairHighOfLow [(0, 1), (1, 2)] 1 = some 2 := by
    simp [Proposer.pairHighOfLow, List.find?]
  have hH1 : Proposer.pairLowOfHigh [(0, 1), (1, 2)] 1 = some 0 := by
    simp [Proposer.pairLowOfHigh, List.find?]
  have h0 : (Proposer.pstep c9P c9I [(0, 1), (1, 2)]
      { soc := c9P.soc0Arbi, pending := c9P.soc0Arbi, prevDay := none,
        cycles := fun _ => 0 } 0).1
      = { soc := 1, pending := 1, prevDay := some 0, cycles := fun _ => 0 } := by
    simp only [Proposer.pstep, hL0, hH0]
    norm_num [Proposer.capEffCh, Proposer.capEffDis, eps, c9P, c9I]
  have h1 : (Proposer.pstep c9P c9I [(0, 1), (1, 2)]
      { soc := 1, pending := 1, prevDay := some 0,
        cycles := fun _ => 0 } 1).2.decCh = true ∧
      (Proposer.pstep c9P c9I [(0, 1), (1, 2)]
      { soc := 1, pending := 1, prevDay := some 0,
        cycles := fun _ => 0 } 1).2.decDis = true := by
    simp only [Proposer.pstep, hL1, hH1]
    norm_num [Proposer.capEffCh, Proposer.capEffDis, eps, c9P, c9I]
  simp only [Proposer.prun]
  rw [hpairs, hrange]
  simp only [Proposer.prunAux]
  rw [h0]
  refine ⟨_, List.mem_cons_of_mem _ (List.mem_cons_self _ _), h1.1, h1.2, ?_⟩
  intro hq
  exact hq ⟨h1.1, h1.2⟩

/-- Proposer parameters of scenario S5: `base_min_profit = 50`,
`soc_bonus_ch = 30`, `p_low = 10 %`, `emax_arbi = 20`, initial simulated SOC
`1 = 0.05·emax_arbi`. -/
def c5P : Proposer.PParams :=
  { emaxArbi := 20, etaCh := 1, etaDis := 1, baseMinProfit := 50,
    cyclesPerDay := 1, allowCarryOver := false, forceOrder := false,
    socLowPct := 10, socHighPct := 100, hourBonusCh := 0, hourBonusDis := 0,
    socBonusCh := 30, socBonusDis := 0, soc0Arbi := 1 }

/-- S5 input with pair spread `Δk = 185 − 100 = 85`. -/
def c5Ia : Proposer.PIn :=
  { dateKey := [0, 0], priceImport := [100, 200], priceExport := [0, 185],
    capGridImport := [100, 100], capGridExport := [100, 100],
    capBessCh := [1000000, 1000000], capBessDis := [1000000, 1000000],
    bonusChMask := [false, false], bonusDisMask := [false, false] }

/-- S5 input with pair spread `Δk = 170 − 100 = 70`. -/
def c5Ib : Proposer.PIn :=
  { dateKey := [0, 0], priceImport := [100, 200], priceExport := [0, 170],
    capGridImport := [100, 100], capGridExport := [100, 100],
    capBessCh := [1000000, 1000000], capBessDis := [1000000, 1000000],
    bonusChMask := [false, false], bonusDisMask := [false, false] }

/-- **C5.** For every hour, the proposer's charge threshold equals
`base_min_profit`, plus `hour_bonus_ch` exactly when the hour is in the charge
bonus mask, plus `soc_bonus_ch` exactly when the simulated ARBI SOC entering
the hour is `≤ p_low·emax_arbi/100` (`p_low` a percentage); and in scenario
S5 (`soc_arbi = 0.05·emax_arbi`, `p_low = 10 %`, `soc_bonus_ch = 30`,
`base_min_profit = 50`) the emitted threshold is 80, a spread `Δk = 85`
enables the charge decision and `Δk = 70` does not. -/
theorem C5_charge_threshold :
    (∀ (p : Proposer.PParams) (inp : Proposer.PIn) (pairs : List (ℕ × ℕ))
        (st : Proposer.PState) (i : ℕ),
      ((Proposer.pstep p inp pairs st i).2).thrLow = p.baseMinProfit
        + (if inp.bonusChMask.getD i false then p.hourBonusCh else 0)
        + (if st.soc ≤ p.emaxArbi * (p.socLowPct / 100) then p.socBonusCh else 0)) ∧
    ((Proposer.prun c5P c5Ia).head?.map fun r => (r.thrLow, r.decCh))
        = some (80, true) ∧
    ((Proposer.prun c5P c5Ib).head?.map fun r => (r.thrLow, r.decCh))
        = some (80, false) := by
  refine ⟨?_, ?_, ?_⟩
  · intro p inp pairs st i
    rcases hL : Proposer.pairHighOfLow pairs i with _ | x <;>
      rcases hH : Proposer.pairLowOfHigh pairs i with _ | y <;>
        simp [Proposer.pstep, hL, hH]
  · have hpairs : Proposer.buildDailyPairs c5P.cyclesPerDay
        (fun i => c5Ia.priceImport.getD i 0)
        (fun i => c5Ia.priceExport.getD i 0) c5Ia.dateKey = [(0, 1)] := by
      norm_num [Proposer.buildDailyPairs,
        Proposer.uniqueDays, Proposer.dedupSorted, Proposer.dayIdx, Proposer.dayPairs,
        Proposer.candLow, Proposer.candHigh, Proposer.greedy, Proposer.pickCode,
        Proposer.lowLe, Proposer.highLe,
        List.insertionSort, List.orderedInsert,
        List.range_succ, List.find?, List.filter, eps, c5Ia, c5P]
    have hrange : List.range c5Ia.dateKey.length = [0, 1] := by rfl
    have hL0 : Proposer.pairHighOfLow [(0, 1)] 0 = some 1 := by
      simp [Proposer.pairHighOfLow, List.find?]
    have hH0 : Proposer.pairLowOfHigh [(0, 1)] 0 = none := by
      simp [Proposer.pairLowOfHigh, List.find?]
    simp only [Proposer.prun]
    rw [hpairs, hrange]
    simp only [Proposer.prunAux, List.head?_cons, Option.map_some]
    simp only [Proposer.pstep, hL0, hH0]
    norm_num [Proposer.capEffCh, Proposer.capEffDis, eps, c5P, c5Ia]
  · have hpairs : Proposer.buildDailyPairs c5P.cyclesPerDay
        (fun i => c5Ib.priceImport.getD i 0)
        (fun i => c5Ib.priceExport.getD i 0) c5Ib.dateKey = [(0, 1)] := by
      norm_num [Proposer.buildDailyPairs,
        Proposer.uniqueDays, Proposer.dedupSorted, Proposer.dayIdx, Proposer.dayPairs,
        Proposer.candLow, Proposer.candHigh, Proposer.greedy, Proposer.pickCode,
        Proposer.lowLe, Proposer.highLe,
        List.insertionSort, List.orderedInsert,
        List.range_succ, List.find?, List.filter, eps, c5Ib, c5P]
    have hrange : List.range c5Ib.dateKey.length = [0, 1] := by rfl
    have hL0 : Proposer.pairHighOfLow [(0, 1)] 0 = some 1 := by
      simp [Proposer.pairHighOfLow, List.find?]
    have hH0 : Proposer.pairLowOfHigh [(0, 1)] 0 = none := by
      simp [Proposer.pairLowOfHigh, List.find?]
    simp only [Proposer.prun]
    rw [hpairs, hrange]
    simp only [Proposer.prunAux, List.head?_cons, Option.map_some]
    simp only [Proposer.pstep, hL0, hH0]
    norm_num [Proposer.capEffCh, Proposer.capEffDis, eps, c5P, c5Ib]

namespace Ingest

/-- `_mask_from_se` (`01_ingest.py:81-91`): the 24-hour 0/1 mask of the window
`[s,e)`.  Only `s = e = 0` is the empty window; `s < e` is the plain interval;
otherwise (including `s = e ≠ 0`) the wrap branch sets `[s,24) ∪ [0,e)`. -/
def maskFromSE (s e : ℕ) : List Bool :=
  (List.range 24).map fun h =>
    if s = 0 ∧ e = 0 then false
    else if s < e then decide (s ≤ h ∧ h < e)
    else decide (s ≤ h ∨ h < e)

/-- The per-(month, mode) zone-mask assembly (`01_ingest.py:196-234` with the
window bound validation of `01_ingest.py:72-79`): `none` models the
`RuntimeError` paths.  An all-empty month yields `off = 24` hours; an active
month validates `AM ∩ PM = ∅` and `|AM|+|PM|+|OFF| = 24` and takes `OFF` as
the complement of `AM ∪ PM`. -/
def monthMasks (sAm eAm sPm ePm : ℕ) :
    Option (List Bool × List Bool × List Bool) :=
  if sAm ≤ 24 ∧ eAm ≤ 24 ∧ sPm ≤ 24 ∧ ePm ≤ 24 then
    let am := maskFromSE sAm eAm
    let pm := maskFromSE sPm ePm
    if am.count true = 0 ∧ pm.count true = 0 then
      some (List.replicate 24 false, List.replicate 24 false,
        List.replicate 24 true)
    else
      if 0 < (am.zip pm).countP (fun x => x.1 && x.2) then none
      else
        let off := (am.zip pm).map fun x => !(x.1 || x.2)
        if off.count true + am.count true + pm.count true ≠ 24 then none
        else some (am, pm, off)
  else none

end Ingest

/-- **C6, counterexample.** The morning window `[5,5)` and afternoon window
`[0,0)` are both empty as half-open intervals on the 24-hour ring, so the
claim requires `mask_off = 24` and `mask_am = 0`; but `_mask_from_se` treats
`start = end = 5` through the wrap branch as the full day, and the ingest
stage emits `mask_am = 24`, `mask_off = 0`. -/
theorem C6_start_eq_end_counterexample :
    Ingest.monthMasks 5 5 0 0
      = some (List.replicate 24 true, List.replicate 24 false,
          List.replicate 24 false) ∧
    ¬ (List.replicate 24 (false : Bool)).count true = 24 := by
  constructor
  · decide
  · decide

/-- **C6, amended.** For every (month, mode) whose two mask windows are empty
as the code computes them — that is, `start = end = 0` or `(start, end) =
(24, 0)`; a window with `start = end ≠ 0` instead covers the full 24-hour
ring — the ingest stage produces `mask_off = 24` and `mask_am = mask_pm = 0`;
and every (month, mode) that passes validation gets masks with
`AM ∩ PM = ∅` and `mask_am + mask_pm + mask_off = 24`. -/
theorem C6_month_masks (sAm eAm sPm ePm : ℕ)
    (hb : sAm ≤ 24 ∧ eAm ≤ 24 ∧ sPm ≤ 24 ∧ ePm ≤ 24) :
    ((Ingest.maskFromSE sAm eAm).count true = 0 ∧
        (Ingest.maskFromSE sPm ePm).count true = 0 →
      Ingest.monthMasks sAm eAm sPm ePm
        = some (List.replicate 24 false, List.replicate 24 false,
            List.replicate 24 true)) ∧
    (∀ am pm off, Ingest.monthMasks sAm eAm sPm ePm = some (am, pm, off) →
      (am.zip pm).countP (fun x => x.1 && x.2) = 0 ∧
      am.count true + pm.count true + off.count true = 24) := by
  constructor
  · intro hempty
    unfold Ingest.monthMasks
    rw [if_pos hb, if_pos hempty]
  · intro am pm off heq
    unfold Ingest.monthMasks at heq
    rw [if_pos hb] at heq
    dsimp only at heq
    split_ifs at heq with h1 h2 h3 <;>
      first
        | exact Option.noConfusion heq
        | (simp only [Option.some.injEq, Prod.mk.injEq] at heq
           obtain ⟨e1, e2, e3⟩ := heq
           subst e1; subst e2; subst e3
           exact ⟨by decide, by decide⟩)
        | (simp only [Option.some.injEq, Prod.mk.injEq] at heq
           obtain ⟨e1, e2, e3⟩ := heq
           subst e1; subst e2; subst e3
           exact ⟨by omega, by omega⟩)

theorem C6_month_masks_witness :
    ((6 : ℕ) ≤ 24 ∧ (10 : ℕ) ≤ 24 ∧ (17 : ℕ) ≤ 24 ∧ (21 : ℕ) ≤ 24) ∧
    (∀ am pm off, Ingest.monthMasks 6 10 17 21 = some (am, pm, off) →
      (am.zip pm).countP (fun x => x.1 && x.2) = 0 ∧
      am.count true + pm.count true + off.count true = 24) :=
  ⟨by decide, (C6_month_masks 6 10 17 21 (by decide)).2⟩

namespace Pricing

/-- The K groups of the capacity-fee policy. -/
inductive KGroup where
  | K1 | K2 | K3 | K4
deriving DecidableEq

/-- `to_K` (`04b_pricing_dyst.py:114-118`) over sorted thresholds. -/
def toK (t1 t2 t3 ds : ℚ) : KGroup :=
  if ds < t1 then .K1 else if ds < t2 then .K2 else if ds < t3 then .K3 else .K4

/-- `_compute_K_A_per_day` for one day (`04b_pricing_dyst.py:112-151`):
ΔS in percent (`1e9` as the sentinel for +∞), the K group and the
coefficient `A`.  `pobor` and `is_cap_peak` are the day's hourly consumption
and peak-window mask. -/
def computeDayKA (pobor : List ℚ) (isPeak : List Bool) (kThr : List ℚ)
    (aOf : KGroup → ℚ) : ℚ × KGroup × ℚ :=
  let thr := List.insertionSort (· ≤ ·) kThr
  let z := pobor.zip isPeak
  let nP := z.countP fun x => x.2
  let nF := z.countP fun x => !x.2
  let ePeak := ((z.filter fun x => x.2).map fun x => x.1).sum
  let eOff := ((z.filter fun x => !x.2).map fun x => x.1).sum
  let ds : ℚ :=
    if nF = 0 then 1000000000
    else
      let avgPeak := ePeak / (max nP 1 : ℕ)
      let avgOff := eOff / (max nF 1 : ℕ)
      if avgOff ≤ 0 ∧ avgPeak > 0 then 1000000000
      else if avgOff ≤ 0 ∧ avgPeak ≤ 0 then 0
      else (avgPeak / avgOff - 1) * 100
  let kg := toK (thr.getD 0 0) (thr.getD 1 0) (thr.getD 2 0) ds
  (ds, kg, aOf kg)

/-- The hourly capacity-fee term (`04b_pricing_dyst.py:317`):
`e · rate_moc · A_day · (1 if peak else 0)`. -/
def capacityFeeHour (e rateMoc aDay : ℚ) (peak : Bool) : ℚ :=
  e * rateMoc * aDay * (if peak then 1 else 0)

theorem sum_map_fst_const (c : ℚ) :
    ∀ l : List (ℚ × Bool), (∀ x ∈ l, x.1 = c) →
      (l.map fun x => x.1).sum = c * l.length
  | [], _ => by simp
  | x :: t, h => by
      have hx := h x (List.mem_cons_self _ _)
      have ht := sum_map_fst_const c t fun y hy => h y (List.mem_cons_of_mem _ hy)
      simp [ht, hx]
      ring

end Pricing

/-- **C7.** For a day in which every peak-fee hour consumes 6 MWh and every
off hour 2 MWh (at least one of each), the pricing stage computes
`ΔS = 200 %`, buckets it against the sorted thresholds `[5,10,15]` into group
K4 with coefficient `A = 1`, and applies the capacity fee `E·rate_moc·A` in
full in the peak-fee hours and zero in all other hours. -/
theorem C7_k4_capacity_fee (pobor : List ℚ) (isPeak : List Bool)
    (aOf : Pricing.KGroup → ℚ) (rateMoc : ℚ)
    (hvals : ∀ x ∈ pobor.zip isPeak, (x.2 = true → x.1 = 6) ∧ (x.2 = false → x.1 = 2))
    (hp : 0 < (pobor.zip isPeak).countP fun x => x.2)
    (hf : 0 < (pobor.zip isPeak).countP fun x => !x.2)
    (hA : aOf .K4 = 1) :
    Pricing.computeDayKA pobor isPeak [5, 10, 15] aOf = (200, .K4, 1) ∧
    ∀ x ∈ pobor.zip isPeak,
      Pricing.capacityFeeHour x.1 rateMoc
          (Pricing.computeDayKA pobor isPeak [5, 10, 15] aOf).2.2 x.2
        = if x.2 = true then x.1 * rateMoc else 0 := by
  have hzP : ∀ x ∈ (pobor.zip isPeak).filter (fun x => x.2), x.1 = 6 := by
    intro x hx
    exact (hvals x (List.mem_of_mem_filter hx)).1 (List.of_mem_filter hx)
  have hzF : ∀ x ∈ (pobor.zip isPeak).filter (fun x => !x.2), x.1 = 2 := by
    intro x hx
    have hb : x.2 = false := by simpa using List.of_mem_filter hx
    exact (hvals x (List.mem_of_mem_filter hx)).2 hb
  have hsumP := Pricing.sum_map_fst_const 6 _ hzP
  have hsumF := Pricing.sum_map_fst_const 2 _ hzF
  have hlenP : ((pobor.zip isPeak).filter (fun x => x.2)).length
      = (pobor.zip isPeak).countP (fun x => x.2) :=
    (List.countP_eq_length_filter _ _).symm
  have hlenF : ((pobor.zip isPeak).filter (fun x => !x.2)).length
      = (pobor.zip isPeak).countP (fun x => !x.2) :=
    (List.countP_eq_length_filter _ _).symm
  have hnP0 : (((pobor.zip isPeak).countP (fun x => x.2) : ℕ) : ℚ) ≠ 0 :=
    Nat.cast_ne_zero.mpr (Nat.pos_iff_ne_zero.mp hp)
  have hnF0 : (((pobor.zip isPeak).countP (fun x => !x.2) : ℕ) : ℚ) ≠ 0 :=
    Nat.cast_ne_zero.mpr (Nat.pos_iff_ne_zero.mp hf)
  have havgP : (((pobor.zip isPeak).filter (fun x => x.2)).map (fun x => x.1)).sum
      / ((max ((pobor.zip isPeak).countP (fun x => x.2)) 1 : ℕ) : ℚ) = 6 := by
    rw [hsumP, hlenP, Nat.max_eq_left hp]
    exact mul_div_cancel_right₀ 6 hnP0
  have havgF : (((pobor.zip isPeak).filter (fun x => !x.2)).map (fun x => x.1)).sum
      / ((max ((pobor.zip isPeak).countP (fun x => !x.2)) 1 : ℕ) : ℚ) = 2 := by
    rw [hsumF, hlenF, Nat.max_eq_left hf]
    exact mul_div_cancel_right₀ 2 hnF0
  have hmain : Pricing.computeDayKA pobor isPeak [5, 10, 15] aOf
      = (200, .K4, 1) := by
    simp only [Pricing.computeDayKA]
    rw [if_neg (Nat.pos_iff_ne_zero.mp hf)]
    rw [havgP, havgF]
    rw [if_neg (by norm_num), if_neg (by norm_num)]
    norm_num [Pricing.toK, List.insertionSort, List.orderedInsert, hA]
  refine ⟨hmain, ?_⟩
  intro x hx
  rw [hmain]
  rcases x with ⟨e, pk⟩
  cases pk <;> simp [Pricing.capacityFeeHour]

theorem C7_k4_capacity_fee_witness :
    ((∀ x ∈ ([(6 : ℚ), 2].zip [true, false]),
        (x.2 = true → x.1 = 6) ∧ (x.2 = false → x.1 = 2)) ∧
      0 < ([(6 : ℚ), 2].zip [true, false]).countP (fun x => x.2) ∧
      0 < ([(6 : ℚ), 2].zip [true, false]).countP (fun x => !x.2)) ∧
    Pricing.computeDayKA [6, 2] [true, false] [5, 10, 15]
        (fun g => if g = Pricing.KGroup.K4 then 1 else 17/100)
      = (200, .K4, 1) :=
  have hv : ∀ x ∈ ([(6 : ℚ), 2].zip [true, false]),
      (x.2 = true → x.1 = 6) ∧ (x.2 = false → x.1 = 2) := by
    intro x hx
    simp only [List.zip_cons_cons, List.zip_nil_right, List.mem_cons,
      List.not_mem_nil, or_false] at hx
    rcases hx with rfl | rfl <;> refine ⟨fun h => ?_, fun h => ?_⟩ <;> simp_all
  have hcp : 0 < ([(6 : ℚ), 2].zip [true, false]).countP (fun x => x.2) := by
    simp [List.countP_cons]
  have hcf : 0 < ([(6 : ℚ), 2].zip [true, false]).countP (fun x => !x.2) := by
    simp [List.countP_cons]
  ⟨⟨hv, hcp, hcf⟩,
    (C7_k4_capacity_fee [6, 2] [true, false]
      (fun g => if g = Pricing.KGroup.K4 then 1 else 17/100) 0
      hv hcp hcf (by norm_num)).1⟩

/-- Parameters exhibiting the C10 divergence: `emax_oze = 0`, `emax_arbi = 1`,
no self-discharge, ARBI pool full at start. -/
def c10P : Commit.CParams :=
  { emaxArbi := 1, emaxOze := 0, etaCh := 1, etaDis := 1,
    lambdaH := 0, arbiDisToLoad := false }

/-- An idle hour (no surplus, deficit or proposals) for the C10 input. -/
def c10H : Commit.HourIn :=
  { capGridExport := 10, capGridImport := 10, capBessCh := 10, capBessDis := 10,
    surplus := 0, deficit := 0, propDis := 0, propCh := 0 }

/-- **C10.** The commit stage computes `soc_arbi_pct_of_total` as
`100·soc_after_idle/(emax_oze+emax_arbi)`, a percentage: on a full 1-MWh ARBI
pool with `emax_oze = 0` it emits the value 100, which fails the stage-06
range check that accepts only values in `[0,1]`
(`06_validate.py:156-157`). -/
theorem C10_pct_breaks_validator_range :
    ((Commit.commitRun c10P (0, 1) [c10H]).map fun o => o.socArbiPctOfTotal)
        = [100] ∧
      ¬ Commit.validatorSocPctOk 100 := by
  constructor
  · norm_num [Commit.commitRun, Commit.hourStep, Commit.finishHour,
      Commit.step5imp, Commit.step5exp, Commit.step4, Commit.step3,
      Commit.step2, Commit.step1, Commit.initSt, c10P, c10H, eps]
  · intro h
    have := h.2
    norm_num at this
